import Mathlib

/-!
# Watchtower — verification of the LLM triage guardrails, webhook enrichment,
# IOC component extraction, repository queries and CEF field escaping

Shallow embedding of the relevant parts of the Watchtower repository
(`internal/adapter/llm/guardrails.go`, `internal/adapter/llm/triager.go`,
`internal/adapter/handler/rest_handler.go`, `internal/core/domain/ioc_extractor.go`,
the Postgres repository and the CEF exporter).

Conventions of the embedding:
* Go `string` values are modeled as Lean `String` (or `List Char` where
  character-level induction is needed); all values appearing in the
  repository's data and in our concrete inputs are ASCII, where the two agree.
* Go `int` is modeled as `Int` (no overflow is reachable at the magnitudes
  involved: confidence and priority arithmetic stays within `[-120, 120]`).
* `time.Time` values are modeled as `Int` timestamps; only their ordering and
  equality matter to the verified code paths.
* Fallible repository calls are modeled by an explicit outcome type
  (`LookupOutcome`), transport errors being externally chosen.
-/

namespace Watchtower

/-! ## String helpers mirroring the Go standard library -/

/-- `startsWith l p` mirrors Go `strings.HasPrefix(l, p)` on char lists. -/
def startsWith : List Char → List Char → Bool
  | _, [] => true
  | [], _ :: _ => false
  | c :: cs, p :: ps => c = p && startsWith cs ps

/-- `containsSub hay needle` mirrors Go `strings.Contains(hay, needle)`. -/
def containsSub : List Char → List Char → Bool
  | [], needle => needle.isEmpty
  | c :: cs, needle => startsWith (c :: cs) needle || containsSub cs needle

/-- Go `strings.HasPrefix` on `String`s. -/
def goStartsWith (s p : String) : Bool := startsWith s.toList p.toList

/-- Go `strings.Contains` on `String`s. -/
def goContains (s sub : String) : Bool := containsSub s.toList sub.toList

/-- Go `strings.ToLower` (ASCII; all repository data is ASCII). -/
def goToLower (s : String) : String := ⟨s.toList.map Char.toLower⟩

/-- ASCII whitespace recognizer used by the `TrimSpace` model. -/
def isSpaceChar (c : Char) : Bool := c = ' ' || c = '\t' || c = '\n' || c = '\r'

/-- Go `strings.TrimSpace` (ASCII whitespace suffices for the verified paths). -/
def goTrimSpace (s : String) : String :=
  ⟨((s.toList.dropWhile isSpaceChar).reverse.dropWhile isSpaceChar).reverse⟩

/-- Go `max` on ints (as in `guardrails.go`). -/
def goMax (a b : Int) : Int := if a > b then a else b

/-- Go `min` on ints (as in `guardrails.go`). -/
def goMin (a b : Int) : Int := if a < b then a else b

/-- Go `abs` helper from `guardrails.go`. -/
def goAbs (x : Int) : Int := if x < 0 then -x else x

/-! ## Data model: `llm.TriageResult`, `llm.IOCContext`, `llm.ThreatContext` -/

/-- `llm.TriageResult` from `triager.go`. -/
structure TriageResult where
  severity : String
  priority : Int
  summary : String
  analysis : String
  recommended : List String
  falsePositive : Bool
  confidence : Int
deriving DecidableEq

/-- `llm.IOCContext` from `triager.go` (an enriched IOC as seen by the triager). -/
structure IOCContext where
  typ : String
  value : String
  inDatabase : Bool
  sources : List String
  tags : List String
  threatTypes : List String
  firstSeen : Int
deriving DecidableEq

/-- `llm.ThreatContext` from `triager.go`. -/
structure ThreatContext where
  alertID : String
  threatName : String
  classification : String
  endpoint : String
  osType : String
  iocs : List IOCContext
deriving DecidableEq

/-- `llm.GuardrailConfig` from `guardrails.go`. -/
structure GuardrailConfig where
  minConfidenceForFalsePositive : Int
  requireThreatIntelForCritical : Bool
  maxSeverityWithoutThreatIntel : String
deriving DecidableEq

/-- `llm.DefaultGuardrailConfig` from `guardrails.go`. -/
def defaultGuardrailConfig : GuardrailConfig :=
  { minConfidenceForFalsePositive := 85
    requireThreatIntelForCritical := true
    maxSeverityWithoutThreatIntel := "medium" }

/-- `llm.KnownGoodIndicators` from `guardrails.go`. -/
def knownGoodIndicators : List String :=
  [ "microsoft.com", "windowsupdate.com", "update.microsoft.com",
    "msftconnecttest.com", "office.com", "live.com",
    "amazonaws.com", "cloudfront.net", "googleapis.com", "gstatic.com", "azure.com",
    "cloudflare.com", "akamai.net", "fastly.net",
    "apple.com", "google.com", "mozilla.org", "ubuntu.com", "debian.org" ]

/-- `llm.HighRiskThreatTypes` from `guardrails.go`. -/
def highRiskThreatTypes : List String :=
  [ "c2_server", "c2", "command_and_control", "malware_download", "ransomware",
    "botnet", "phishing", "cryptominer", "backdoor", "trojan", "rat", "webshell" ]

/-- `llm.isKnownGoodIndicator`: case-insensitive substring match against the list. -/
def isKnownGoodIndicator (value : String) : Bool :=
  knownGoodIndicators.any (fun good => goContains (goToLower value) good)

/-- `llm.isHighRiskThreatType`: case-insensitive substring match against the list. -/
def isHighRiskThreatType (threatType : String) : Bool :=
  highRiskThreatTypes.any (fun risk => goContains (goToLower threatType) risk)

/-- The five valid severities of `llm.normalizeSeverity`. -/
def validSeverities : List String := ["critical", "high", "medium", "low", "info"]

/-- `llm.normalizeSeverity`: lowercase/trim, default to `"medium"` when invalid. -/
def normalizeSeverity (severity : String) : String :=
  let s := goToLower (goTrimSpace severity)
  if validSeverities.contains s then s else "medium"

/-- `llm.normalizePriority`: clamp into `[1, 5]` (the severity argument is unused
    in the source as well). -/
def normalizePriority (priority : Int) (_severity : String) : Int :=
  let p := if priority < 1 then 1 else priority
  if p > 5 then 5 else p

/-- `llm.normalizeConfidence`: clamp into `[0, 100]`. -/
def normalizeConfidence (confidence : Int) : Int :=
  if confidence < 0 then 0 else if confidence > 100 then 100 else confidence

/-- The `severityToPriority` map of `llm.ensurePriorityMatchesSeverity`;
    a missing key yields Go's zero value `0`. -/
def severityToPriority (severity : String) : Int :=
  if severity = "critical" then 1
  else if severity = "high" then 2
  else if severity = "medium" then 3
  else if severity = "low" then 4
  else if severity = "info" then 5
  else 0

/-- `llm.ensurePriorityMatchesSeverity`: allow ±1 deviation, else snap to the
    canonical priority of the severity. -/
def ensurePriorityMatchesSeverity (priority : Int) (severity : String) : Int :=
  if severityToPriority severity = 0 then priority
  else if goAbs (priority - severityToPriority severity) > 1 then severityToPriority severity
  else priority

/-- `llm.getDefaultRecommendations` from `guardrails.go`. -/
def getDefaultRecommendations (severity : String) : List String :=
  if severity = "critical" then
    [ "Immediately isolate the affected endpoint", "Initiate incident response procedures",
      "Conduct forensic analysis", "Check for indicators of lateral movement" ]
  else if severity = "high" then
    [ "Isolate the endpoint from the network", "Review endpoint activity logs",
      "Scan for additional compromised systems", "Collect forensic evidence" ]
  else if severity = "medium" then
    [ "Investigate endpoint activity", "Monitor for suspicious behavior",
      "Review logs for related indicators" ]
  else if severity = "low" then
    [ "Monitor the endpoint", "Document findings for future reference" ]
  else
    [ "Review and document for analysis" ]

/-! ## The pre-LLM guardrails (`llm.ApplyPreLLMGuardrails`) -/

/-- Count of IOCs with `InDatabase` (the `iocsInDB` loop of
    `ApplyPostLLMGuardrails`). -/
def iocsInDB (threat : ThreatContext) : Nat :=
  (threat.iocs.filter (fun ioc => ioc.inDatabase)).length

/-- The `hasHighRiskTypes` flag of `ApplyPostLLMGuardrails` (and the identical
    `hasHighRiskIOC` loop of `ApplyPreLLMGuardrails`): some in-database IOC has a
    high-risk threat type. -/
def hasHighRiskTypes (threat : ThreatContext) : Bool :=
  threat.iocs.any (fun ioc => ioc.inDatabase && ioc.threatTypes.any isHighRiskThreatType)

/-- The `highRiskTypes` list collected by the second pre-filter loop: every
    high-risk threat type of every in-database IOC, in order. -/
def collectedHighRiskTypes (threat : ThreatContext) : List String :=
  (threat.iocs.filter (fun ioc => ioc.inDatabase)).flatMap
    (fun ioc => ioc.threatTypes.filter isHighRiskThreatType)

/-- `llm.ApplyPreLLMGuardrails`. The Go function returns `(*TriageResult, bool)`
    where the boolean (`shouldSkipLLM`) is `true` exactly when the pointer is
    non-nil, so the pair collapses to an `Option` here: `some r` means the
    pre-filter short-circuits with result `r`. -/
def applyPreLLMGuardrails (threat : ThreatContext) (_config : GuardrailConfig) :
    Option TriageResult :=
  let hasIOCs := threat.iocs.length > 0
  let allKnownGood := threat.iocs.all (fun ioc => isKnownGoodIndicator ioc.value)
  if hasIOCs && allKnownGood then
    some { severity := "info"
           priority := 5
           summary := "All indicators are legitimate infrastructure"
           analysis := "Analysis shows all indicators belong to known legitimate services (Microsoft, Google, cloud providers, etc.). This is a false positive."
           recommended := ["Mark as false positive", "Adjust detection rules to exclude legitimate services"]
           falsePositive := true
           confidence := 95 }
  else if hasHighRiskTypes threat then
    some { severity := "high"
           priority := 2
           summary := "Confirmed malicious activity detected in threat intelligence"
           analysis := "Multiple threat intelligence sources confirm this as malicious activity: "
             ++ String.intercalate ", " (collectedHighRiskTypes threat)
           recommended := ["Isolate affected endpoint immediately", "Conduct forensic analysis", "Check for lateral movement", "Scan other endpoints for similar IOCs"]
           falsePositive := false
           confidence := 90 }
  else
    none

/-! ## The post-LLM guardrails (`llm.ApplyPostLLMGuardrails`)

The Go function is a sequence of in-place updates on `result`; each numbered
guardrail becomes one step function, and `applyPostLLMGuardrails` is their
composition in source order. -/

/-- The field-normalization prologue of `ApplyPostLLMGuardrails`
    (severity, then priority against the new severity, then confidence). -/
def guardrailNormalize (r : TriageResult) : TriageResult :=
  let sev := normalizeSeverity r.severity
  { r with severity := sev
           priority := normalizePriority r.priority sev
           confidence := normalizeConfidence r.confidence }

/-- Guardrail 1 of `ApplyPostLLMGuardrails`: cannot mark as false positive when
    IOCs are in the threat database. The source performs two sequential updates
    (clear the flag and adjust confidence, then conditionally raise severity);
    they are flattened here into one conditional record update. -/
def guardrailFPOverride (db : Nat) (r : TriageResult) : TriageResult :=
  if r.falsePositive && db > 0 then
    if r.severity = "info" || r.severity = "low" then
      { r with falsePositive := false, confidence := goMax (r.confidence - 20) 50
               severity := "medium", priority := 3 }
    else
      { r with falsePositive := false, confidence := goMax (r.confidence - 20) 50 }
  else r

/-- Guardrail 2 of `ApplyPostLLMGuardrails`: high-risk threat types cannot keep
    low severity. Note the source writes `max(result.Confidence+10, 85)`. -/
def guardrailHighRisk (hasHighRisk : Bool) (r : TriageResult) : TriageResult :=
  if hasHighRisk && (r.severity = "info" || r.severity = "low") then
    { r with severity := "high", priority := 2, falsePositive := false
             confidence := goMax (r.confidence + 10) 85 }
  else r

/-- Guardrail 3 of `ApplyPostLLMGuardrails`: no critical/high severity without
    threat intel (unless high confidence). -/
def guardrailRequireIntel (config : GuardrailConfig) (db : Nat) (r : TriageResult) :
    TriageResult :=
  if config.requireThreatIntelForCritical && db = 0 then
    if r.severity = "critical" then
      { r with severity := "high", priority := 2, confidence := goMin r.confidence 75 }
    else if r.severity = "high" && r.confidence < 80 then
      { r with severity := "medium", priority := 3, confidence := goMin r.confidence 70 }
    else r
  else r

/-- Guardrail 4 of `ApplyPostLLMGuardrails`: boost confidence when at least three
    distinct sources agree (the unique-source map ranges over all IOCs). -/
def guardrailMultiSource (db : Nat) (uniqueSources : Nat) (r : TriageResult) :
    TriageResult :=
  if db > 0 && uniqueSources ≥ 3 then
    { r with confidence := goMin (r.confidence + 15) 98 }
  else r

/-- Guardrail 5 of `ApplyPostLLMGuardrails`: a false positive requires high
    confidence, else it is re-marked for analyst review. -/
def guardrailFPConfidence (config : GuardrailConfig) (r : TriageResult) : TriageResult :=
  if r.falsePositive && r.confidence < config.minConfidenceForFalsePositive then
    { r with falsePositive := false, severity := "low", priority := 4
             analysis := r.analysis ++ " (Note: Marked for analyst review due to uncertainty)" }
  else r

/-- Guardrail 6 of `ApplyPostLLMGuardrails`: severity/priority alignment. -/
def guardrailAlignPriority (r : TriageResult) : TriageResult :=
  { r with priority := ensurePriorityMatchesSeverity r.priority r.severity }

/-- Guardrail 7 of `ApplyPostLLMGuardrails`: default recommended actions for
    non-false-positives. -/
def guardrailDefaultRecs (r : TriageResult) : TriageResult :=
  if !r.falsePositive && r.recommended.length = 0 then
    { r with recommended := getDefaultRecommendations r.severity }
  else r

/-- Number of distinct sources across all IOCs of the context (the
    `uniqueSources` map of guardrail 4; map insertion = first-occurrence dedup,
    only the cardinality is used). -/
def uniqueSourcesCount (threat : ThreatContext) : Nat :=
  ((threat.iocs.map IOCContext.sources).flatten).dedup.length

/-- `llm.ApplyPostLLMGuardrails`: normalization followed by guardrails 1–7 in
    source order. -/
def applyPostLLMGuardrails (r : TriageResult) (threat : ThreatContext)
    (config : GuardrailConfig) : TriageResult :=
  let r := guardrailNormalize r
  let db := iocsInDB threat
  let r := guardrailFPOverride db r
  let r := guardrailHighRisk (hasHighRiskTypes threat) r
  let r := guardrailRequireIntel config db r
  let r := guardrailMultiSource db (uniqueSourcesCount threat) r
  let r := guardrailFPConfidence config r
  let r := guardrailAlignPriority r
  guardrailDefaultRecs r

/-- `llm.LLMTriager.Triage`, restricted to its deterministic data flow: the
    pre-filter short-circuit, else the post-filter applied to the parsed LLM
    result (`llmResult` stands for the output of `parseResponse`). `Triage`
    always uses `DefaultGuardrailConfig()`. -/
def triage (threat : ThreatContext) (llmResult : TriageResult) : TriageResult :=
  match applyPreLLMGuardrails threat defaultGuardrailConfig with
  | some pre => pre
  | none => applyPostLLMGuardrails llmResult threat defaultGuardrailConfig

/-! ## Invariants of the triage result (claim C1 and its relatives) -/

/-- Basic field bounds: valid severity, priority in `[1,5]`, confidence in
    `[0, b]`. -/
def fieldBounds (b : Int) (r : TriageResult) : Prop :=
  r.severity ∈ validSeverities ∧ 1 ≤ r.priority ∧ r.priority ≤ 5 ∧
  0 ≤ r.confidence ∧ r.confidence ≤ b

/-- The full invariant every triage result satisfies: field bounds with
    confidence at most 110, priority within one of the canonical priority of
    the severity, and false positives carrying confidence at least 85. -/
def resultInvariant (r : TriageResult) : Prop :=
  r.severity ∈ validSeverities ∧ 1 ≤ r.priority ∧ r.priority ≤ 5 ∧
  0 ≤ r.confidence ∧ r.confidence ≤ 110 ∧
  goAbs (r.priority - severityToPriority r.severity) ≤ 1 ∧
  (r.falsePositive = true → 85 ≤ r.confidence)

lemma normalizeSeverity_mem (s : String) : normalizeSeverity s ∈ validSeverities := by
  show (if validSeverities.contains (goToLower (goTrimSpace s)) = true then
    goToLower (goTrimSpace s) else "medium") ∈ validSeverities
  by_cases h : validSeverities.contains (goToLower (goTrimSpace s)) = true
  · rw [if_pos h]
    exact List.mem_of_elem_eq_true h
  · rw [if_neg h]
    simp [validSeverities]

lemma guardrailNormalize_bounds (r : TriageResult) :
    fieldBounds 100 (guardrailNormalize r) := by
  refine ⟨normalizeSeverity_mem r.severity, ?_, ?_, ?_, ?_⟩ <;>
    simp only [guardrailNormalize, normalizePriority, normalizeConfidence] <;>
    split_ifs <;> omega

lemma guardrailFPOverride_bounds {b : Int} (hb : 80 ≤ b) (db : Nat) {r : TriageResult}
    (h : fieldBounds b r) : fieldBounds b (guardrailFPOverride db r) := by
  obtain ⟨h1, h2, h3, h4, h5⟩ := h
  unfold guardrailFPOverride goMax
  split_ifs <;>
    refine ⟨?_, ?_, ?_, ?_, ?_⟩ <;>
    simp_all [validSeverities] <;> omega

lemma guardrailHighRisk_bounds {r : TriageResult} (hhr : Bool)
    (h : fieldBounds 100 r) : fieldBounds 110 (guardrailHighRisk hhr r) := by
  obtain ⟨h1, h2, h3, h4, h5⟩ := h
  unfold guardrailHighRisk goMax
  split_ifs <;>
    refine ⟨?_, ?_, ?_, ?_, ?_⟩ <;>
    simp_all [validSeverities] <;> omega

lemma guardrailRequireIntel_bounds {b : Int} (cfg : GuardrailConfig) (db : Nat)
    {r : TriageResult} (h : fieldBounds b r) :
    fieldBounds b (guardrailRequireIntel cfg db r) := by
  obtain ⟨h1, h2, h3, h4, h5⟩ := h
  unfold guardrailRequireIntel goMin
  split_ifs <;>
    refine ⟨?_, ?_, ?_, ?_, ?_⟩ <;>
    simp_all [validSeverities] <;> omega

lemma guardrailMultiSource_bounds {b : Int} (hb : 98 ≤ b) (db us : Nat)
    {r : TriageResult} (h : fieldBounds b r) :
    fieldBounds b (guardrailMultiSource db us r) := by
  obtain ⟨h1, h2, h3, h4, h5⟩ := h
  unfold guardrailMultiSource goMin
  split_ifs <;>
    refine ⟨?_, ?_, ?_, ?_, ?_⟩ <;>
    simp_all [validSeverities] <;> omega

lemma guardrailFPConfidence_bounds {b : Int} (cfg : GuardrailConfig)
    {r : TriageResult} (h : fieldBounds b r) :
    fieldBounds b (guardrailFPConfidence cfg r) := by
  obtain ⟨h1, h2, h3, h4, h5⟩ := h
  unfold guardrailFPConfidence
  split_ifs <;>
    refine ⟨?_, ?_, ?_, ?_, ?_⟩ <;>
    simp_all [validSeverities]

/-- Guardrail 5 with the default threshold establishes the false-positive
    confidence invariant outright. -/
lemma guardrailFPConfidence_fp (r : TriageResult) :
    (guardrailFPConfidence defaultGuardrailConfig r).falsePositive = true →
    85 ≤ (guardrailFPConfidence defaultGuardrailConfig r).confidence := by
  unfold guardrailFPConfidence defaultGuardrailConfig
  split_ifs with h
  · simp
  · intro hfp
    simp only [Bool.and_eq_true, decide_eq_true_eq, not_and, not_lt] at h
    exact h hfp

/-- After guardrail 6 the priority is within one of the canonical priority,
    provided the severity is one of the five valid severities. -/
lemma guardrailAlignPriority_aligned {r : TriageResult}
    (hsev : r.severity ∈ validSeverities) :
    goAbs ((guardrailAlignPriority r).priority -
      severityToPriority (guardrailAlignPriority r).severity) ≤ 1 := by
  have hne : severityToPriority r.severity ≠ 0 := by
    simp only [validSeverities, List.mem_cons, List.not_mem_nil, or_false] at hsev
    rcases hsev with h | h | h | h | h <;> simp [severityToPriority, h]
  unfold guardrailAlignPriority ensurePriorityMatchesSeverity goAbs
  split_ifs <;> simp_all

lemma guardrailAlignPriority_bounds {b : Int} {r : TriageResult}
    (h : fieldBounds b r) : fieldBounds b (guardrailAlignPriority r) := by
  obtain ⟨h1, h2, h3, h4, h5⟩ := h
  have hexp : severityToPriority r.severity = 0 ∨
      (1 ≤ severityToPriority r.severity ∧ severityToPriority r.severity ≤ 5) := by
    unfold severityToPriority
    split_ifs <;> omega
  unfold guardrailAlignPriority ensurePriorityMatchesSeverity goAbs
  refine ⟨h1, ?_, ?_, h4, h5⟩ <;> split_ifs <;> simp_all

lemma guardrailDefaultRecs_fields (r : TriageResult) :
    (guardrailDefaultRecs r).severity = r.severity ∧
    (guardrailDefaultRecs r).priority = r.priority ∧
    (guardrailDefaultRecs r).confidence = r.confidence ∧
    (guardrailDefaultRecs r).falsePositive = r.falsePositive := by
  unfold guardrailDefaultRecs
  split_ifs <;> simp

/-- The post-filter with the default configuration establishes the full result
    invariant for every input result and threat context. -/
lemma applyPostLLMGuardrails_invariant (r : TriageResult) (threat : ThreatContext) :
    resultInvariant (applyPostLLMGuardrails r threat defaultGuardrailConfig) := by
  unfold applyPostLLMGuardrails
  have h0 := guardrailNormalize_bounds r
  have h1 := guardrailFPOverride_bounds (by norm_num) (iocsInDB threat) h0
  have h2 := guardrailHighRisk_bounds (hasHighRiskTypes threat) h1
  have h3 := guardrailRequireIntel_bounds defaultGuardrailConfig (iocsInDB threat) h2
  have h4 := guardrailMultiSource_bounds (by norm_num) (iocsInDB threat)
    (uniqueSourcesCount threat) h3
  have h5 := guardrailFPConfidence_bounds defaultGuardrailConfig h4
  have hfp := guardrailFPConfidence_fp (guardrailMultiSource (iocsInDB threat)
    (uniqueSourcesCount threat) (guardrailRequireIntel defaultGuardrailConfig
      (iocsInDB threat) (guardrailHighRisk (hasHighRiskTypes threat)
        (guardrailFPOverride (iocsInDB threat) (guardrailNormalize r)))))
  have h6 := guardrailAlignPriority_bounds h5
  have halign := guardrailAlignPriority_aligned h5.1
  set r5 := guardrailFPConfidence defaultGuardrailConfig (guardrailMultiSource
    (iocsInDB threat) (uniqueSourcesCount threat) (guardrailRequireIntel
      defaultGuardrailConfig (iocsInDB threat) (guardrailHighRisk
        (hasHighRiskTypes threat) (guardrailFPOverride (iocsInDB threat)
          (guardrailNormalize r))))) with hr5
  have hrec := guardrailDefaultRecs_fields (guardrailAlignPriority r5)
  obtain ⟨e1, e2, e3, e4⟩ := hrec
  obtain ⟨g1, g2, g3, g4, g5⟩ := h6
  have halignfp : (guardrailAlignPriority r5).falsePositive = r5.falsePositive := by
    simp [guardrailAlignPriority]
  have halignconf : (guardrailAlignPriority r5).confidence = r5.confidence := by
    simp [guardrailAlignPriority]
  have halignsev : (guardrailAlignPriority r5).severity = r5.severity := by
    simp [guardrailAlignPriority]
  refine ⟨?_, ?_, ?_, ?_, ?_, ?_, ?_⟩
  · rw [e1]; exact g1
  · rw [e2]; exact g2
  · rw [e2]; exact g3
  · rw [e3]; exact g4
  · rw [e3]; exact g5
  · rw [e1, e2]; exact halign
  · intro hfp'
    rw [e3, halignconf]
    apply hfp
    rw [← halignfp, ← e4]; exact hfp'

/-- The pre-filter only ever returns its two literal results, and both satisfy
    the invariant. -/
lemma applyPreLLMGuardrails_invariant (threat : ThreatContext) (cfg : GuardrailConfig)
    (r : TriageResult) (h : applyPreLLMGuardrails threat cfg = some r) :
    resultInvariant r := by
  simp only [applyPreLLMGuardrails] at h
  split_ifs at h <;> simp only [Option.some.injEq] at h <;> subst h <;>
    exact ⟨by simp [validSeverities], by norm_num, by norm_num, by norm_num, by norm_num,
      by exact (by decide : goAbs ((5 : Int) - severityToPriority "info") ≤ 1),
      by intro hfp; norm_num⟩

/-! ## False-positive tracking through the post-filter -/

lemma guardrailFPOverride_fp_rev {db : Nat} {r : TriageResult}
    (h : (guardrailFPOverride db r).falsePositive = true) :
    r.falsePositive = true ∧ db = 0 := by
  unfold guardrailFPOverride at h
  split_ifs at h with h1
  refine ⟨h, ?_⟩
  simp only [Bool.and_eq_true, decide_eq_true_eq] at h1
  by_contra hdb
  exact h1 ⟨h, by omega⟩

lemma guardrailHighRisk_fp_rev {hr : Bool} {r : TriageResult}
    (h : (guardrailHighRisk hr r).falsePositive = true) : r.falsePositive = true := by
  unfold guardrailHighRisk at h
  split_ifs at h
  exact h

lemma guardrailRequireIntel_fp (cfg : GuardrailConfig) (db : Nat) (r : TriageResult) :
    (guardrailRequireIntel cfg db r).falsePositive = r.falsePositive := by
  unfold guardrailRequireIntel
  split_ifs <;> simp

lemma guardrailMultiSource_fp (db us : Nat) (r : TriageResult) :
    (guardrailMultiSource db us r).falsePositive = r.falsePositive := by
  unfold guardrailMultiSource
  split_ifs <;> simp

lemma guardrailFPConfidence_fp_rev {cfg : GuardrailConfig} {r : TriageResult}
    (h : (guardrailFPConfidence cfg r).falsePositive = true) : r.falsePositive = true := by
  unfold guardrailFPConfidence at h
  split_ifs at h
  exact h

lemma guardrailAlignPriority_fp (r : TriageResult) :
    (guardrailAlignPriority r).falsePositive = r.falsePositive := by
  simp [guardrailAlignPriority]

lemma guardrailDefaultRecs_fp (r : TriageResult) :
    (guardrailDefaultRecs r).falsePositive = r.falsePositive := by
  unfold guardrailDefaultRecs
  split_ifs <;> simp

/-- A post-filter result marked false positive forces an empty in-database count:
    guardrail 1 would have cleared the flag otherwise, and no later guardrail
    ever sets it. -/
lemma applyPostLLMGuardrails_fp_rev {r : TriageResult} {threat : ThreatContext}
    {cfg : GuardrailConfig}
    (h : (applyPostLLMGuardrails r threat cfg).falsePositive = true) :
    iocsInDB threat = 0 := by
  unfold applyPostLLMGuardrails at h
  rw [guardrailDefaultRecs_fp, guardrailAlignPriority_fp] at h
  have h5 := guardrailFPConfidence_fp_rev h
  rw [guardrailMultiSource_fp, guardrailRequireIntel_fp] at h5
  have h2 := guardrailHighRisk_fp_rev h5
  exact (guardrailFPOverride_fp_rev h2).2

/-! ## Concrete inputs for the counterexamples and scenario checks -/

/-- A threat context with a single enriched indicator that is in the threat
    database with high-risk threat type `"c2"` and one source. -/
def ctxHighRisk : ThreatContext :=
  { alertID := "alert-1", threatName := "C2 Communication", classification := "Malware",
    endpoint := "SERVER-01", osType := "linux",
    iocs := [{ typ := "ip", value := "203.0.113.9", inDatabase := true,
               sources := ["urlhaus"], tags := [], threatTypes := ["c2"], firstSeen := 0 }] }

/-- An LLM result with severity `low` and confidence 80 (not a false positive). -/
def resLowConf80 : TriageResult :=
  { severity := "low", priority := 4, summary := "s", analysis := "a",
    recommended := ["review"], falsePositive := false, confidence := 80 }

/-- An LLM result with severity `low` and confidence 100 (not a false positive). -/
def resLowConf100 : TriageResult :=
  { severity := "low", priority := 4, summary := "s", analysis := "a",
    recommended := ["review"], falsePositive := false, confidence := 100 }

/-- A threat context whose only indicator matches the known-good list
    (`google.com`) yet is present in the threat database. -/
def ctxKnownGoodInDB : ThreatContext :=
  { alertID := "alert-2", threatName := "Suspicious DNS", classification := "Suspicious",
    endpoint := "LAPTOP-7", osType := "windows",
    iocs := [{ typ := "domain", value := "google.com", inDatabase := true,
               sources := ["urlhaus"], tags := [], threatTypes := [], firstSeen := 0 }] }

/-- Scenario S6 context: exactly one enriched indicator, in the database, with a
    non-high-risk threat type and a single source. -/
def s6Ctx : ThreatContext :=
  { alertID := "alert-3", threatName := "Generic Detection", classification := "Malware",
    endpoint := "HOST-9", osType := "windows",
    iocs := [{ typ := "ip", value := "198.51.100.7", inDatabase := true,
               sources := ["osv"], tags := [], threatTypes := ["generic"], firstSeen := 0 }] }

/-- Scenario S6 LLM result: `{severity: "low", false_positive: true, confidence: 70}`. -/
def s6LLMResult : TriageResult :=
  { severity := "low", priority := 4, summary := "s", analysis := "a",
    recommended := [], falsePositive := true, confidence := 70 }

/-! ## Claim C1 -/

/-- **C1 (amended).** Every triage result — whether the pre-filter short-circuit
    or the post-filter applied to any parsed LLM result over any alert context,
    under the default configuration — has a severity from the five-value enum,
    priority in `[1,5]`, confidence in `[0,110]`, priority within one of the
    canonical priority of its severity, and `false_positive ⇒ confidence ≥ 85`.
    (The claimed upper bound 100 on confidence is amended to 110: the severity
    upgrade guardrail sets `max(confidence+10, 85)`, reaching 110 at
    confidence 100.) -/
theorem spec_C1_triage_result_invariants (threat : ThreatContext)
    (llmResult : TriageResult) :
    resultInvariant (triage threat llmResult) ∧
    resultInvariant (applyPostLLMGuardrails llmResult threat defaultGuardrailConfig) := by
  refine ⟨?_, applyPostLLMGuardrails_invariant llmResult threat⟩
  unfold triage
  cases h : applyPreLLMGuardrails threat defaultGuardrailConfig with
  | none => exact applyPostLLMGuardrails_invariant llmResult threat
  | some pre => exact applyPreLLMGuardrails_invariant threat defaultGuardrailConfig pre h

/-- **C1 counterexample.** The post-filter can output confidence 110 > 100: an
    LLM result with severity `low` and confidence 100 over a context with one
    in-database high-risk indicator. This refutes `confidence ∈ [0,100]` as
    claimed. -/
theorem spec_C1_confidence_gt_100_counterexample :
    (applyPostLLMGuardrails resLowConf100 ctxHighRisk defaultGuardrailConfig).confidence
      = 110 ∧
    ¬ ((applyPostLLMGuardrails resLowConf100 ctxHighRisk
        defaultGuardrailConfig).confidence ≤ 100) := by
  constructor <;> decide

/-! ## Claim C2 -/

/-- **C2 (amended).** For every result produced by the post-filter (any input
    result, context and configuration): `false_positive = true` implies every
    enriched indicator has `in_database = false`. The pre-filter all-benign
    short-circuit does not enforce this (see the counterexample). -/
theorem spec_C2_post_fp_implies_no_db_indicator (r : TriageResult)
    (threat : ThreatContext) (cfg : GuardrailConfig)
    (h : (applyPostLLMGuardrails r threat cfg).falsePositive = true) :
    ∀ ioc ∈ threat.iocs, ioc.inDatabase = false := by
  have hdb := applyPostLLMGuardrails_fp_rev h
  unfold iocsInDB at hdb
  intro ioc hmem
  by_contra hne
  have : ioc ∈ threat.iocs.filter (fun ioc => ioc.inDatabase) := by
    simp only [List.mem_filter]
    exact ⟨hmem, by simp_all⟩
  rw [List.length_eq_zero] at hdb
  simp [hdb] at this

/-- A context whose single indicator is not in the threat database. -/
def ctxNotInDB : ThreatContext :=
  { alertID := "w", threatName := "t", classification := "c", endpoint := "e",
    osType := "o",
    iocs := [{ typ := "domain", value := "unknown.example", inDatabase := false,
               sources := [], tags := [], threatTypes := [], firstSeen := 0 }] }

/-- A confident false-positive LLM result (severity `info`, confidence 90). -/
def resFPConf90 : TriageResult :=
  { severity := "info", priority := 5, summary := "s", analysis := "a",
    recommended := ["r"], falsePositive := true, confidence := 90 }

/-- Witness for C2: a context whose only indicator is not in the database, and a
    false-positive LLM result with confidence 90 that the post-filter keeps. -/
theorem spec_C2_post_fp_implies_no_db_indicator_witness :
    (applyPostLLMGuardrails resFPConf90 ctxNotInDB
      defaultGuardrailConfig).falsePositive = true ∧
    ∀ ioc ∈ ctxNotInDB.iocs, ioc.inDatabase = false :=
  ⟨by decide, spec_C2_post_fp_implies_no_db_indicator resFPConf90 ctxNotInDB defaultGuardrailConfig (by decide)⟩

/-- **C2 counterexample.** The pre-filter all-benign short-circuit (reached
    through the triage operation) returns `false_positive = true` for a context
    whose only indicator (`google.com`) *is* in the threat database: the claim's
    extension to pre-filter results fails. -/
theorem spec_C2_prefilter_counterexample :
    (triage ctxKnownGoodInDB resLowConf80).falsePositive = true ∧
    ¬ (∀ ioc ∈ ctxKnownGoodInDB.iocs, ioc.inDatabase = false) := by
  constructor
  · decide
  · intro hall
    have := hall { typ := "domain", value := "google.com", inDatabase := true,
                   sources := ["urlhaus"], tags := [], threatTypes := [], firstSeen := 0 }
      (by decide)
    simp at this

/-! ## Claim C3 -/

/-- **C3 (amended).** In the post-filter, when some enriched in-database
    indicator has a high-risk threat type and the (normalized) severity is
    `info` or `low`, the severity-upgrade guardrail sets severity `high`,
    priority 2, `false_positive := false`, and confidence to
    `max(confidence + 10, 85)` — a *floor* of 85, not a cap: the result exceeds
    85 whenever the incoming confidence exceeds 75. -/
theorem spec_C3_high_risk_upgrade (r : TriageResult) (threat : ThreatContext)
    (hhr : hasHighRiskTypes threat = true)
    (hsev : r.severity = "info" ∨ r.severity = "low") :
    guardrailHighRisk (hasHighRiskTypes threat) r =
      { r with severity := "high", priority := 2, falsePositive := false
               confidence := goMax (r.confidence + 10) 85 } := by
  unfold guardrailHighRisk
  rw [if_pos]
  rw [hhr]
  simp only [Bool.true_and, Bool.or_eq_true, decide_eq_true_eq]
  exact hsev

/-- Witness for C3 (amended): the upgrade fires on `ctxHighRisk` and
    `resLowConf80`. -/
theorem spec_C3_high_risk_upgrade_witness :
    guardrailHighRisk (hasHighRiskTypes ctxHighRisk) resLowConf80 =
      { resLowConf80 with severity := "high", priority := 2, falsePositive := false
                          confidence := goMax (resLowConf80.confidence + 10) 85 } :=
  spec_C3_high_risk_upgrade resLowConf80 ctxHighRisk (by decide) (by decide)

/-- **C3 counterexample.** End to end, the post-filter on an LLM result with
    severity `low` and confidence 80 over a high-risk context yields confidence
    90, exceeding the cap of 85 the claim asserts for the upgrade path. -/
theorem spec_C3_cap_counterexample :
    (applyPostLLMGuardrails resLowConf80 ctxHighRisk defaultGuardrailConfig).confidence
      = 90 ∧
    ¬ ((applyPostLLMGuardrails resLowConf80 ctxHighRisk
        defaultGuardrailConfig).confidence ≤ 85) := by
  constructor <;> decide

/-! ## Claim C4 -/

/-- **C4.** The false-positive override: whenever the LLM result is marked
    false positive but some enriched indicator is in the database, guardrail 1
    clears the flag, sets confidence to `max(confidence − 20, 50)` and, when the
    severity is `info` or `low`, raises it to `medium` with priority 3.
    Moreover the S6 scenario holds end to end: `{severity: low,
    false_positive: true, confidence: 70}` with exactly one in-database
    indicator yields severity `medium`, `false_positive = false`, confidence 50,
    priority 3. -/
theorem spec_C4_fp_override (threat : ThreatContext) (r : TriageResult)
    (hdb : ∃ ioc ∈ threat.iocs, ioc.inDatabase = true)
    (hfp : r.falsePositive = true) :
    ((guardrailFPOverride (iocsInDB threat) r).falsePositive = false ∧
     (guardrailFPOverride (iocsInDB threat) r).confidence = goMax (r.confidence - 20) 50 ∧
     ((r.severity = "info" ∨ r.severity = "low") →
       (guardrailFPOverride (iocsInDB threat) r).severity = "medium" ∧
       (guardrailFPOverride (iocsInDB threat) r).priority = 3)) ∧
    ((applyPostLLMGuardrails s6LLMResult s6Ctx defaultGuardrailConfig).severity = "medium" ∧
     (applyPostLLMGuardrails s6LLMResult s6Ctx defaultGuardrailConfig).falsePositive = false ∧
     (applyPostLLMGuardrails s6LLMResult s6Ctx defaultGuardrailConfig).confidence = 50 ∧
     (applyPostLLMGuardrails s6LLMResult s6Ctx defaultGuardrailConfig).priority = 3) := by
  have hpos : iocsInDB threat > 0 := by
    obtain ⟨ioc, hmem, hin⟩ := hdb
    have : ioc ∈ threat.iocs.filter (fun ioc => ioc.inDatabase) := by
      simp only [List.mem_filter]
      exact ⟨hmem, by simp [hin]⟩
    unfold iocsInDB
    exact List.length_pos.mpr (fun hnil => by simp [hnil] at this)
  refine ⟨?_, by decide, by decide, by decide, by decide⟩
  unfold guardrailFPOverride
  rw [if_pos (by simp [hfp]; omega)]
  rcases Decidable.em (r.severity = "info" ∨ r.severity = "low") with hs | hs
  · rw [if_pos (by simpa using hs)]
    simp
  · rw [if_neg (by simpa using hs)]
    exact ⟨rfl, rfl, fun hcontra => absurd hcontra hs⟩

/-- Witness for C4: the override applied to the S6 inputs. -/
theorem spec_C4_fp_override_witness :
    (guardrailFPOverride (iocsInDB s6Ctx) s6LLMResult).falsePositive = false ∧
    (guardrailFPOverride (iocsInDB s6Ctx) s6LLMResult).confidence
      = goMax (s6LLMResult.confidence - 20) 50 ∧
    (guardrailFPOverride (iocsInDB s6Ctx) s6LLMResult).severity = "medium" ∧
    (guardrailFPOverride (iocsInDB s6Ctx) s6LLMResult).priority = 3 := by
  have h := spec_C4_fp_override s6Ctx s6LLMResult
    ⟨{ typ := "ip", value := "198.51.100.7", inDatabase := true,
       sources := ["osv"], tags := [], threatTypes := ["generic"], firstSeen := 0 },
      by decide, rfl⟩ rfl
  exact ⟨h.1.1, h.1.2.1, (h.1.2.2 (Or.inr rfl)).1, (h.1.2.2 (Or.inr rfl)).2⟩

/-! ## The IOC catalog and the Postgres repository queries

`domain.IOC` from `internal/core/domain/ioc.go`; the repository queries from
the Postgres adapter. A catalog (the `iocs` table) is a list of rows; `ORDER BY
date_ingested DESC` is modeled by a (stable) insertion sort under the
newest-first relation, and `LIMIT` by `take`. -/

/-- `domain.IOC`. `time.Time` fields are `Int` timestamps. -/
structure IOC where
  value : String
  typ : String
  source : String
  threatType : String
  tags : List String
  version : String
  firstSeen : Int
  dateIngested : Int
deriving DecidableEq

/-- The newest-first ordering of `ORDER BY date_ingested DESC`. -/
def ingestedGE (a b : IOC) : Prop := b.dateIngested ≤ a.dateIngested

instance : DecidableRel ingestedGE := fun a b => Int.decLe b.dateIngested a.dateIngested

instance : IsTotal IOC ingestedGE := ⟨fun a b => le_total b.dateIngested a.dateIngested⟩

instance : IsTrans IOC ingestedGE := ⟨fun _ _ _ h1 h2 => le_trans h2 h1⟩

/-- `PostgresRepository.FindAllByValue`: `WHERE value = $1 ORDER BY
    date_ingested DESC`. -/
def findAllByValue (catalog : List IOC) (value : String) : List IOC :=
  List.insertionSort ingestedGE (catalog.filter (fun row => row.value = value))

/-- `PostgresRepository.FindContaining`: `WHERE value LIKE '%'||$1||'%'
    ORDER BY date_ingested DESC LIMIT 100`. -/
def findContaining (catalog : List IOC) (value : String) : List IOC :=
  (List.insertionSort ingestedGE
    (catalog.filter (fun row => containsSub row.value.toList value.toList))).take 100

/-- `PostgresRepository.FindSince`: `WHERE date_ingested >= $1 ORDER BY
    date_ingested DESC LIMIT $2`. The limit is passed straight to SQL; there is
    no defaulting of 0 (SQL `LIMIT 0` returns no rows). -/
def findSince (catalog : List IOC) (since : Int) (limit : Int) : List IOC :=
  (List.insertionSort ingestedGE
    (catalog.filter (fun row => since ≤ row.dateIngested))).take limit.toNat

/-! ## The SentinelOne webhook enrichment loop (`RestHandler.SentinelOneWebhook`) -/

/-- An inbound alert indicator (`SentinelOneIOC`): only type and value matter to
    the enrichment loop. -/
structure AlertIndicator where
  typ : String
  value : String
deriving DecidableEq

/-- `handler.EnrichedIndicator`. -/
structure EnrichedIndicator where
  typ : String
  value : String
  inDatabase : Bool
  sources : List String
  tags : List String
  threatTypes : List String
  firstSeen : Int
deriving DecidableEq

/-- `handler.uniqueStrings` (first-occurrence deduplication via a seen-map),
    written with an explicit accumulator of already-seen strings. -/
def uniqueStringsAux (seen : List String) : List String → List String
  | [] => []
  | s :: rest =>
    if seen.contains s then uniqueStringsAux seen rest
    else s :: uniqueStringsAux (s :: seen) rest

/-- `handler.uniqueStrings`. -/
def uniqueStrings (l : List String) : List String := uniqueStringsAux [] l

/-- The enrichment of one indicator from the rows its lookup produced
    (the body of the loop in `SentinelOneWebhook` after both lookups): no rows
    means "not in database" (zero-value remaining fields); otherwise the
    deduplicated unions of the rows' sources/tags/threat types and — as in the
    source — `FirstSeen` of the *first* returned row (`iocs[0].FirstSeen`). -/
def enrichFromRows (ind : AlertIndicator) (rows : List IOC) : EnrichedIndicator :=
  match rows with
  | [] =>
    { typ := ind.typ, value := ind.value, inDatabase := false,
      sources := [], tags := [], threatTypes := [], firstSeen := 0 }
  | first :: _ =>
    { typ := ind.typ, value := ind.value, inDatabase := true,
      sources := uniqueStrings (rows.map IOC.source),
      tags := uniqueStrings (rows.map IOC.tags).flatten,
      threatTypes := uniqueStrings (rows.map IOC.threatType),
      firstSeen := first.firstSeen }

/-- Outcome of one repository call as seen by the webhook loop: a transport
    error, or a row list. -/
inductive LookupOutcome where
  | err
  | ok (rows : List IOC)
deriving DecidableEq

/-- One iteration of the enrichment loop for one indicator, given the outcomes
    of the exact-match lookup and (if consulted) the contains lookup:
    * exact lookup error → `continue` (the indicator produces no entry);
    * exact lookup empty → fall back to the contains lookup, a contains error
      leaving the row list empty (Go returns `nil` rows with the error);
    * the indicator is then enriched from whatever rows remain. -/
def webhookEnrichStep (ind : AlertIndicator) (exact contains : LookupOutcome) :
    Option EnrichedIndicator :=
  match exact with
  | .err => none
  | .ok rows =>
    let rows := if rows.isEmpty then
        (match contains with
         | .err => []
         | .ok rows2 => rows2)
      else rows
    some (enrichFromRows ind rows)

/-- The whole enrichment loop over the payload's indicators, each paired with
    its two lookup outcomes; `enrichedIndicators` collects the produced
    entries in order. -/
def webhookEnrich (inds : List (AlertIndicator × LookupOutcome × LookupOutcome)) :
    List EnrichedIndicator :=
  inds.filterMap (fun x => webhookEnrichStep x.1 x.2.1 x.2.2)

/-! ## Concrete catalogs for C5–C7 -/

/-- Older matching row (ingested at 100) carrying the *earliest* first-seen 50. -/
def rowOld : IOC :=
  { value := "evil.example", typ := "domain", source := "osv",
    threatType := "malware_download", tags := [], version := "",
    firstSeen := 50, dateIngested := 100 }

/-- Newer matching row (ingested at 200) first seen only at 500. -/
def rowNew : IOC :=
  { value := "evil.example", typ := "domain", source := "urlhaus",
    threatType := "malware_download", tags := [], version := "",
    firstSeen := 500, dateIngested := 200 }

/-- A catalog holding both rows (stored oldest-first; the query sorts). -/
def catalogC5 : List IOC := [rowOld, rowNew]

/-- The inbound indicator matching both rows. -/
def indEvil : AlertIndicator := { typ := "domain", value := "evil.example" }

/-- An arbitrary inbound indicator for the error-path counterexample. -/
def indErr : AlertIndicator := { typ := "ip", value := "198.51.100.77" }

/-- One-row catalog for the `find_since` counterexample. -/
def catalogC7 : List IOC :=
  [{ value := "bad.example", typ := "domain", source := "osv",
     threatType := "c2_server", tags := [], version := "",
     firstSeen := 1, dateIngested := 5 }]

/-! ## Claim C5 -/

/-- **C5 (amended).** For an indicator with matching catalog rows, the enriched
    indicator's `first_seen` is the `first_seen` of the *first returned row* —
    the newest row by `date_ingested`, since the repository returns rows newest
    first — not the minimum across matching rows. -/
theorem spec_C5_first_seen_is_first_rows (ind : AlertIndicator) (first : IOC)
    (rest : List IOC) (catalog : List IOC) (value : String) :
    ((enrichFromRows ind (first :: rest)).firstSeen = first.firstSeen ∧
     (enrichFromRows ind (first :: rest)).inDatabase = true) ∧
    (List.Sorted ingestedGE (findAllByValue catalog value) ∧
     (findAllByValue catalog value).all (fun row => row.value == value) = true) := by
  refine ⟨⟨rfl, rfl⟩, List.sorted_insertionSort ingestedGE _, ?_⟩
  rw [List.all_eq_true]
  intro row hrow
  have hmem : row ∈ catalog.filter (fun row => row.value = value) :=
    (List.perm_insertionSort ingestedGE _).mem_iff.mp hrow
  have := (List.mem_filter.mp hmem).2
  simpa using this

/-- **C5 counterexample.** Two matching rows: the newest-ingested one was first
    seen at 500, the older one at 50. The webhook reports `first_seen = 500`,
    not the earliest (50). -/
theorem spec_C5_counterexample :
    (enrichFromRows indEvil (findAllByValue catalogC5 "evil.example")).inDatabase = true ∧
    (enrichFromRows indEvil (findAllByValue catalogC5 "evil.example")).firstSeen = 500 ∧
    rowOld ∈ catalogC5 ∧ rowOld.value = "evil.example" ∧ rowOld.firstSeen = 50 ∧
    ¬ ((enrichFromRows indEvil (findAllByValue catalogC5 "evil.example")).firstSeen
        ≤ rowOld.firstSeen) := by
  refine ⟨by decide, by decide, by decide, by decide, by decide, by decide⟩

/-! ## Claim C6 -/

/-- **C6 (amended).** In the webhook loop, an indicator whose *exact-match*
    lookup fails with a transport error is skipped entirely (`continue`): it is
    dropped from the enriched list (and hence from `indicators_enriched`).
    Only when the exact match succeeds with no rows and the *contains* lookup
    fails is the indicator reported as "not in database" and processing
    continues. -/
theorem spec_C6_error_paths (ind : AlertIndicator) (contains : LookupOutcome)
    (rest : List (AlertIndicator × LookupOutcome × LookupOutcome)) :
    webhookEnrich ((ind, LookupOutcome.err, contains) :: rest) = webhookEnrich rest ∧
    webhookEnrich ((ind, LookupOutcome.ok [], LookupOutcome.err) :: rest)
      = enrichFromRows ind [] :: webhookEnrich rest ∧
    (enrichFromRows ind []).inDatabase = false := by
  refine ⟨?_, ?_, rfl⟩ <;> simp [webhookEnrich, webhookEnrichStep]

/-- **C6 counterexample.** A single-indicator payload whose exact-match lookup
    errors produces an *empty* enriched list: the indicator is silently dropped
    rather than reported as "not in database". -/
theorem spec_C6_counterexample :
    webhookEnrich [(indErr, LookupOutcome.err, LookupOutcome.ok [])] = [] ∧
    (webhookEnrich [(indErr, LookupOutcome.err, LookupOutcome.ok [])]).length = 0 := by
  refine ⟨by decide, by decide⟩

/-! ## Claim C7 -/

/-- **C7 (amended).** `find_since(t, limit)` returns rows with
    `date_ingested ≥ t`, newest first, at most `limit` of them; there is *no*
    limit-0 defaulting: `find_since(t, 0)` is always empty (SQL `LIMIT 0`), and
    the 10 000 cap is passed explicitly by the exporters. When `limit ≥ 1` and
    some row matches, the result is non-empty. -/
theorem spec_C7_find_since (catalog : List IOC) (t lim : Int)
    (hlim : 1 ≤ lim.toNat)
    (hmatch : catalog.any (fun row => decide (t ≤ row.dateIngested)) = true) :
    findSince catalog t 0 = [] ∧
    (findSince catalog t lim).length ≤ lim.toNat ∧
    (findSince catalog t lim).all (fun row => decide (t ≤ row.dateIngested)) = true ∧
    List.Sorted ingestedGE (findSince catalog t lim) ∧
    findSince catalog t lim ≠ [] := by
  refine ⟨by simp [findSince], List.length_take_le _ _, ?_, ?_, ?_⟩
  · rw [List.all_eq_true]
    intro row hrow
    have hmem : row ∈ catalog.filter (fun row => t ≤ row.dateIngested) := by
      exact (List.perm_insertionSort ingestedGE _).mem_iff.mp
        (List.mem_of_mem_take hrow)
    simpa using (List.mem_filter.mp hmem).2
  · exact (List.sorted_insertionSort ingestedGE _).sublist
      (List.take_sublist _ _)
  · intro hnil
    have hlen : (findSince catalog t lim).length = 0 := by rw [hnil]; rfl
    rw [List.any_eq_true] at hmatch
    obtain ⟨row, hrow, hd⟩ := hmatch
    have hfil : row ∈ catalog.filter (fun row => t ≤ row.dateIngested) :=
      List.mem_filter.mpr ⟨hrow, hd⟩
    have hpos : 0 < (catalog.filter (fun row => t ≤ row.dateIngested)).length :=
      List.length_pos.mpr (fun h => by simp [h] at hfil)
    have hsortlen := (List.perm_insertionSort ingestedGE
      (catalog.filter (fun row => t ≤ row.dateIngested))).length_eq
    unfold findSince at hlen
    rw [List.length_take] at hlen
    omega

/-- Witness for C7: the one-row catalog, `t = 0`, limit 10 000 (the value the
    exporters pass). -/
theorem spec_C7_find_since_witness :
    findSince catalogC7 0 0 = [] ∧ findSince catalogC7 0 10000 ≠ [] :=
  ⟨(spec_C7_find_since catalogC7 0 10000 (by decide) (by decide)).1,
   (spec_C7_find_since catalogC7 0 10000 (by decide) (by decide)).2.2.2.2⟩

/-- **C7 counterexample.** A catalog with one matching row: `find_since(t, 0)`
    returns the empty list even though a row matches — the claimed limit-0
    defaulting to a 10 000 cap (and hence non-emptiness) does not exist. -/
theorem spec_C7_counterexample :
    findSince catalogC7 0 0 = [] ∧
    (catalogC7.any (fun row => decide ((0 : Int) ≤ row.dateIngested))) = true := by
  refine ⟨by decide, by decide⟩

/-! ## IP literal recognition (`net.ParseIP`)

`net.ParseIP` dispatches on the first `'.'` or `':'` it meets: a dot selects
the IPv4 parser (exactly four dot-separated decimal fields, each 1–3 digits,
no leading zero, value ≤ 255), a colon the IPv6 parser (hex groups of 1–4
digits separated by `':'`, at most one `::` compression, optionally a trailing
embedded IPv4 counting as two groups, eight groups in total without
compression and at most seven with). -/

/-- Numeric value of a decimal digit field. -/
def fieldVal (f : List Char) : Nat :=
  f.foldl (fun acc c => acc * 10 + (c.toNat - '0'.toNat)) 0

/-- One IPv4 field: 1–3 digits, no leading zero, at most 255. -/
def ipv4FieldOk (f : List Char) : Bool :=
  !f.isEmpty && f.length ≤ 3 && f.all Char.isDigit &&
    (f.length = 1 || f.headI ≠ '0') && fieldVal f ≤ 255

/-- The IPv4 branch of `net.ParseIP`. -/
def parseIPv4 (s : List Char) : Bool :=
  (s.splitOn '.').length = 4 && (s.splitOn '.').all ipv4FieldOk

/-- Hexadecimal digit. -/
def isHexDigitChar (c : Char) : Bool :=
  c.isDigit || ('a' ≤ c && c ≤ 'f') || ('A' ≤ c && c ≤ 'F')

/-- One IPv6 group: 1–4 hex digits. -/
def ipv6GroupOk (g : List Char) : Bool :=
  !g.isEmpty && g.length ≤ 4 && g.all isHexDigitChar

/-- Split at the first `::`, when present. -/
def splitOnDoubleColon : List Char → Option (List Char × List Char)
  | ':' :: ':' :: rest => some ([], rest)
  | c :: rest => (splitOnDoubleColon rest).map (fun p => (c :: p.1, p.2))
  | [] => none

/-- Colon-separated groups (an empty char list has no groups). -/
def ipv6Groups (s : List Char) : List (List Char) :=
  if s.isEmpty then [] else s.splitOn ':'

/-- Group count when all groups are plain hex groups. -/
def ipv6GroupsOk (gs : List (List Char)) : Option Nat :=
  if gs.all ipv6GroupOk then some gs.length else none

/-- Group count allowing a trailing embedded IPv4 (worth two groups). -/
def ipv6GroupsTailOk (gs : List (List Char)) : Option Nat :=
  if gs.all ipv6GroupOk then some gs.length
  else
    match gs.getLast? with
    | some last =>
      if gs.dropLast.all ipv6GroupOk && parseIPv4 last then some (gs.dropLast.length + 2)
      else none
    | none => none

/-- The IPv6 branch of `net.ParseIP`, at the level of the textual grammar. -/
def parseIPv6 (s : List Char) : Bool :=
  match splitOnDoubleColon s with
  | none =>
    match ipv6GroupsTailOk (ipv6Groups s) with
    | some n => !s.isEmpty && n = 8
    | none => false
  | some (l, r) =>
    if containsSub r [':', ':'] then false
    else
      match ipv6GroupsOk (ipv6Groups l), ipv6GroupsTailOk (ipv6Groups r) with
      | some m, some n => m + n ≤ 7
      | _, _ => false

/-- `net.ParseIP(s) != nil`: dispatch on the first `'.'` or `':'`. -/
def parseIP (s : List Char) : Bool :=
  match s.find? (fun c => c = '.' || c = ':') with
  | some c => if c = '.' then parseIPv4 s else parseIPv6 s
  | none => false

/-! ## `domain.ExtractIOCComponents` (`ioc_extractor.go`) -/

/-- The separator set of the `strings.FieldsFunc` call: `':'`, `'/'`, `'?'`. -/
def extractSep (c : Char) : Bool := c = ':' || c = '/' || c = '?'

/-- `strings.FieldsFunc`: split at separators, dropping empty fields. -/
def fieldsFunc (f : Char → Bool) (s : List Char) : List (List Char) :=
  (List.splitOnP f s).filter (fun t => !t.isEmpty)

/-- Drop everything up to and including the last `'@'` (userinfo). -/
def afterLastAt (l : List Char) : List Char :=
  if l.contains '@' then (l.reverse.takeWhile (fun c => c ≠ '@')).reverse else l

/-- Model of `url.Parse(value)` followed by `URL.Hostname()` for the
    `http://`/`https://` values reaching the URL branch of the extractor:
    the scheme is stripped, the authority is cut at the first `'/'`, `'?'` or
    `'#'`, userinfo is dropped at the last `'@'`, a bracketed IPv6 host is
    returned without its brackets, a numeric port after the last colon is
    stripped, and a non-numeric port makes the parse fail (`none`). -/
def goURLHostname (value : String) : Option String :=
  let cs := value.toList
  let rest :=
    if startsWith cs "https://".toList then cs.drop 8
    else if startsWith cs "http://".toList then cs.drop 7
    else cs
  let authority := rest.takeWhile (fun c => c ≠ '/' && c ≠ '?' && c ≠ '#')
  let hostport := afterLastAt authority
  if hostport.contains ']' then
    match hostport with
    | '[' :: t => some ⟨t.takeWhile (fun c => c ≠ ']')⟩
    | _ => none
  else if hostport.contains ':' then
    if ((hostport.dropWhile (fun c => c ≠ ':')).drop 1).all Char.isDigit then
      some ⟨hostport.takeWhile (fun c => c ≠ ':')⟩
    else none
  else
    some ⟨hostport⟩

/-- The IOC appended by the URL branch: type `ip` or `domain` according to
    `net.ParseIP(host)`, tag `extracted-from-url` prepended, empty version,
    remaining fields inherited from the source IOC. -/
def extractedFromURL (host : String) (sourceIOC : IOC) : IOC :=
  { value := host
    typ := if parseIP host.toList then "ip" else "domain"
    source := sourceIOC.source
    threatType := sourceIOC.threatType
    tags := "extracted-from-url" :: sourceIOC.tags
    version := ""
    firstSeen := sourceIOC.firstSeen
    dateIngested := sourceIOC.dateIngested }

/-- The IOC appended by the embedded-IP branch for token `part`. -/
def extractedFromValue (part : List Char) (sourceIOC : IOC) : IOC :=
  { value := ⟨part⟩
    typ := "ip"
    source := sourceIOC.source
    threatType := sourceIOC.threatType
    tags := "extracted-from-value" :: sourceIOC.tags
    version := ""
    firstSeen := sourceIOC.firstSeen
    dateIngested := sourceIOC.dateIngested }

/-- The URL branch of `ExtractIOCComponents`: only for values starting with
    `http://` or `https://`; appends one IOC when the parsed hostname is
    non-empty and differs from the whole value. -/
def urlExtracted (value : String) (sourceIOC : IOC) : List IOC :=
  if goStartsWith value "http://" || goStartsWith value "https://" then
    match goURLHostname value with
    | some host => if host ≠ "" && host ≠ value then [extractedFromURL host sourceIOC] else []
    | none => []
  else []

/-- The loop condition of the embedded-IP branch: the token parses as an IP and
    differs from the whole value. -/
def extractPred (value : String) (part : List Char) : Bool :=
  parseIP part && part ≠ value.toList

/-- The embedded-IP branch of `ExtractIOCComponents`: only for values *not*
    starting with `http`; the loop with `break` appends the IOC of the *first*
    token satisfying the condition. -/
def ipExtracted (value : String) (sourceIOC : IOC) : List IOC :=
  if !goStartsWith value "http" then
    match (fieldsFunc extractSep value.toList).find? (extractPred value) with
    | some part => [extractedFromValue part sourceIOC]
    | none => []
  else []

/-- `domain.ExtractIOCComponents`: the source IOC always first, then whatever
    the two branches append (in source order). -/
def extractIOCComponents (value : String) (sourceIOC : IOC) : List IOC :=
  sourceIOC :: (urlExtracted value sourceIOC ++ ipExtracted value sourceIOC)

lemma startsWith_append {l p q : List Char}
    (h : startsWith l (p ++ q) = true) : startsWith l p = true := by
  induction p generalizing l with
  | nil => cases l <;> rfl
  | cons a p ih =>
    cases l with
    | nil => simp [startsWith] at h
    | cons c cs =>
      simp only [List.cons_append, startsWith, Bool.and_eq_true] at h ⊢
      exact ⟨h.1, ih h.2⟩

lemma startsWith_http_of_scheme {value : String}
    (h : goStartsWith value "http://" = true ∨ goStartsWith value "https://" = true) :
    goStartsWith value "http" = true := by
  unfold goStartsWith at h ⊢
  rcases h with h | h
  · have : "http://".toList = "http".toList ++ "://".toList := by decide
    rw [this] at h
    exact startsWith_append h
  · have : "https://".toList = "http".toList ++ "s://".toList := by decide
    rw [this] at h
    exact startsWith_append h

lemma urlExtracted_length (value : String) (src : IOC) :
    (urlExtracted value src).length ≤ 1 := by
  unfold urlExtracted
  split_ifs
  · cases goURLHostname value with
    | none => simp
    | some host => dsimp only; split_ifs <;> simp
  · simp

lemma ipExtracted_length (value : String) (src : IOC) :
    (ipExtracted value src).length ≤ 1 := by
  unfold ipExtracted
  split_ifs
  · cases (fieldsFunc extractSep value.toList).find? (extractPred value) with
    | none => simp
    | some part => simp
  · simp

/-- The two branches are mutually exclusive: the URL branch needs an `http`
    scheme prefix, the embedded-IP branch its absence. -/
lemma extract_branches_exclusive (value : String) (src : IOC) :
    urlExtracted value src = [] ∨ ipExtracted value src = [] := by
  by_cases h : goStartsWith value "http://" = true ∨ goStartsWith value "https://" = true
  · right
    unfold ipExtracted
    rw [if_neg]
    simp [startsWith_http_of_scheme h]
  · left
    unfold urlExtracted
    rw [if_neg]
    simpa using h

lemma extractIOCComponents_length_le_two (value : String) (src : IOC) :
    (extractIOCComponents value src).length ≤ 2 := by
  have htail : (urlExtracted value src ++ ipExtracted value src).length ≤ 1 := by
    rw [List.length_append]
    rcases extract_branches_exclusive value src with h | h <;>
      simp [h, urlExtracted_length, ipExtracted_length]
  show (urlExtracted value src ++ ipExtracted value src).length + 1 ≤ 2
  omega

/-! ## Claim C10 -/

/-- **C10.** `extract_components` always returns the unmodified source IOC
    first, followed by at most one extracted IOC (so the result has length 1 or
    2): the URL-host branch and the embedded-IP branch are mutually exclusive,
    and each appends at most one element — a single call never emits both a
    host-derived IOC and an embedded-IP IOC, nor both an IP and a Domain IOC. -/
theorem spec_C10_extract_shape (value : String) (src : IOC) :
    extractIOCComponents value src = src :: (extractIOCComponents value src).tail ∧
    (extractIOCComponents value src).tail.length ≤ 1 ∧
    1 ≤ (extractIOCComponents value src).length ∧
    (extractIOCComponents value src).length ≤ 2 ∧
    (urlExtracted value src = [] ∨ ipExtracted value src = []) := by
  have hex := extract_branches_exclusive value src
  have hu := urlExtracted_length value src
  have hi := ipExtracted_length value src
  have htail : (extractIOCComponents value src).tail.length ≤ 1 := by
    show (urlExtracted value src ++ ipExtracted value src).length ≤ 1
    rw [List.length_append]
    rcases hex with h | h <;> simp [h] <;> omega
  refine ⟨rfl, htail, ?_, extractIOCComponents_length_le_two value src, hex⟩
  simp [extractIOCComponents]

/-! ## Claim C8 -/

/-- A source IOC whose value contains two distinct embedded IP literals. -/
def srcTwoIPs : IOC :=
  { value := "1.2.3.4:5.6.7.8", typ := "url", source := "urlhaus",
    threatType := "c2_server", tags := ["botnet"], version := "",
    firstSeen := 10, dateIngested := 20 }

/-- A source IOC for the witness (value `1.2.3.4:80`). -/
def srcIPPort : IOC :=
  { value := "1.2.3.4:80", typ := "url", source := "osv",
    threatType := "malware_download", tags := [], version := "",
    firstSeen := 3, dateIngested := 4 }

/-- **C8 (amended).** For a value not starting with `http`: the extractor emits
    one additional IP IOC iff *some* token (split on `':'`, `'/'`, `'?'`) is an
    IP literal distinct from the whole value — not "exactly one": the loop
    breaks at the *first* matching token, so additional IP tokens do not
    suppress the emission. The emitted IOC is built from that first matching
    token with tag `extracted-from-value` prepended, empty version, and
    inherited source/threat type/first seen/date ingested; at most one IP IOC
    is emitted. -/
theorem spec_C8_embedded_ip (value : String) (src : IOC)
    (hpre : goStartsWith value "http" = false) :
    ((extractIOCComponents value src).length = 2 ↔
      ∃ part ∈ fieldsFunc extractSep value.toList,
        parseIP part = true ∧ part ≠ value.toList) ∧
    (extractIOCComponents value src).length ≤ 2 ∧
    (∀ part, (fieldsFunc extractSep value.toList).find? (extractPred value) = some part →
      extractIOCComponents value src = [src, extractedFromValue part src]) := by
  have hurl : urlExtracted value src = [] := by
    unfold urlExtracted
    rw [if_neg]
    intro hcontra
    rw [startsWith_http_of_scheme (by simpa using hcontra)] at hpre
    exact Bool.noConfusion hpre
  have hip : ipExtracted value src =
      match (fieldsFunc extractSep value.toList).find? (extractPred value) with
      | some part => [extractedFromValue part src]
      | none => [] := by
    unfold ipExtracted
    rw [if_pos (by simp [hpre])]
  refine ⟨?_, extractIOCComponents_length_le_two value src, ?_⟩
  · constructor
    · intro hlen
      cases hfind : (fieldsFunc extractSep value.toList).find? (extractPred value) with
      | none =>
        rw [hfind] at hip
        simp [extractIOCComponents, hurl, hip] at hlen
      | some part =>
        have hsome : ((fieldsFunc extractSep value.toList).find?
            (extractPred value)).isSome := by rw [hfind]; rfl
        obtain ⟨x, hx, hpx⟩ := List.find?_isSome.mp hsome
        exact ⟨x, hx, by simpa [extractPred, Bool.and_eq_true] using hpx⟩
    · intro ⟨part, hmem, hpip, hne⟩
      have hsome : ((fieldsFunc extractSep value.toList).find?
          (extractPred value)).isSome :=
        List.find?_isSome.mpr ⟨part, hmem, by
          simp only [extractPred, Bool.and_eq_true, decide_eq_true_eq]
          exact ⟨hpip, hne⟩⟩
      cases hfind : (fieldsFunc extractSep value.toList).find? (extractPred value) with
      | none => rw [hfind] at hsome; simp at hsome
      | some p =>
        rw [hfind] at hip
        simp [extractIOCComponents, hurl, hip]
  · intro part hfind
    rw [hfind] at hip
    simp [extractIOCComponents, hurl, hip]

/-- Witness for C8 (amended): `1.2.3.4:80` (no `http` prefix, first and only
    IP token `1.2.3.4`) yields exactly the source plus the extracted IP IOC. -/
theorem spec_C8_embedded_ip_witness :
    goStartsWith "1.2.3.4:80" "http" = false ∧
    extractIOCComponents "1.2.3.4:80" srcIPPort =
      [srcIPPort, extractedFromValue "1.2.3.4".toList srcIPPort] :=
  ⟨by decide,
   (spec_C8_embedded_ip "1.2.3.4:80" srcIPPort (by decide)).2.2
     "1.2.3.4".toList (by decide)⟩

/-- **C8 counterexample.** `1.2.3.4:5.6.7.8` has *two* distinct IP tokens, yet
    an IP IOC (for the first token `1.2.3.4`) *is* emitted — the claim's
    "exactly one token, else nothing" reading is refuted. -/
theorem spec_C8_counterexample :
    ((fieldsFunc extractSep "1.2.3.4:5.6.7.8".toList).filter
      (extractPred "1.2.3.4:5.6.7.8")).length = 2 ∧
    (extractIOCComponents "1.2.3.4:5.6.7.8" srcTwoIPs).length = 2 ∧
    (extractIOCComponents "1.2.3.4:5.6.7.8" srcTwoIPs).getLast? =
      some (extractedFromValue "1.2.3.4".toList srcTwoIPs) := by
  refine ⟨by decide, by decide, by decide⟩

/-! ## CEF field escaping (`exporter.escapeField`)

The exporter escapes, in order, `\` → `\\`, `|` → `\|`, `=` → `\=`, LF → `\n`,
CR → `\r` via five `strings.ReplaceAll` passes. Go strings are byte strings;
all five targets are single ASCII characters, so each pass is a
character-by-character substitution on the char-list model. -/

/-- One `strings.ReplaceAll(s, old, new)` pass for a single-character `old`. -/
def replaceChar (s : List Char) (old : Char) (new : List Char) : List Char :=
  s.flatMap (fun c => if c = old then new else [c])

/-- `exporter.escapeField`: the five passes in source order (backslash first). -/
def escapeField (s : List Char) : List Char :=
  replaceChar (replaceChar (replaceChar (replaceChar
    (replaceChar s '\\' ['\\', '\\'])
    '|' ['\\', '|'])
    '=' ['\\', '='])
    '\n' ['\\', 'n'])
    '\r' ['\\', 'r']

/-- The per-character escape table the five passes implement. -/
def escChar (c : Char) : List Char :=
  if c = '\\' then ['\\', '\\']
  else if c = '|' then ['\\', '|']
  else if c = '=' then ['\\', '=']
  else if c = '\n' then ['\\', 'n']
  else if c = '\r' then ['\\', 'r']
  else [c]

/-- Modelled from the spec: the CEF escape rule's decoder, absent from `src/`
    (the spec's §"every emitted line round-trips through its escape rule";
    fields `|`-delimited, `\`, `|`, `=`, LF, CR backslash-escaped). A backslash
    followed by `n` or `r` decodes to LF/CR; a backslash followed by any other
    character decodes to that character; everything else is copied. -/
def unescapeField : List Char → List Char
  | [] => []
  | [c] => [c]
  | c :: d :: rest =>
    if c = '\\' then
      (if d = 'n' then '\n' else if d = 'r' then '\r' else d) :: unescapeField rest
    else c :: unescapeField (d :: rest)

/-- Modelled from the spec: a well-escaped CEF field value — every backslash
    starts one of the five escape pairs, and `|`, `=`, LF, CR never occur bare
    (so no unescaped occurrence of any special character remains). -/
def wellEscaped : List Char → Bool
  | [] => true
  | [c] => !(c = '\\' || c = '|' || c = '=' || c = '\n' || c = '\r')
  | c :: d :: rest =>
    if c = '\\' then
      (d = '\\' || d = '|' || d = '=' || d = 'n' || d = 'r') && wellEscaped rest
    else
      !(c = '\\' || c = '|' || c = '=' || c = '\n' || c = '\r') && wellEscaped (d :: rest)

lemma replaceChar_append (a b : List Char) (old : Char) (new : List Char) :
    replaceChar (a ++ b) old new = replaceChar a old new ++ replaceChar b old new := by
  simp [replaceChar]

lemma escapeField_append (a b : List Char) :
    escapeField (a ++ b) = escapeField a ++ escapeField b := by
  simp [escapeField, replaceChar_append]

lemma escapeField_single (c : Char) : escapeField [c] = escChar c := by
  by_cases h1 : c = '\\'
  · subst h1; decide
  by_cases h2 : c = '|'
  · subst h2; decide
  by_cases h3 : c = '='
  · subst h3; decide
  by_cases h4 : c = '\n'
  · subst h4; decide
  by_cases h5 : c = '\r'
  · subst h5; decide
  simp [escapeField, replaceChar, escChar, h1, h2, h3, h4, h5]

lemma escapeField_cons (c : Char) (t : List Char) :
    escapeField (c :: t) = escChar c ++ escapeField t := by
  have : (c :: t) = [c] ++ t := rfl
  rw [this, escapeField_append, escapeField_single]

lemma unescape_escChar (c : Char) (t : List Char) :
    unescapeField (escChar c ++ t) = c :: unescapeField t := by
  by_cases h1 : c = '\\'
  · subst h1; simp [escChar, unescapeField]
  by_cases h2 : c = '|'
  · subst h2; simp [escChar, unescapeField]
  by_cases h3 : c = '='
  · subst h3; simp [escChar, unescapeField]
  by_cases h4 : c = '\n'
  · subst h4; simp [escChar, unescapeField]
  by_cases h5 : c = '\r'
  · subst h5; simp [escChar, unescapeField]
  · simp only [escChar, h1, h2, h3, h4, h5, if_false, List.singleton_append]
    cases t with
    | nil => rfl
    | cons d rest => simp [unescapeField, h1]

lemma wellEscaped_escChar (c : Char) (t : List Char)
    (ht : wellEscaped t = true) : wellEscaped (escChar c ++ t) = true := by
  by_cases h1 : c = '\\'
  · subst h1; simpa [escChar, wellEscaped] using ht
  by_cases h2 : c = '|'
  · subst h2; simpa [escChar, wellEscaped] using ht
  by_cases h3 : c = '='
  · subst h3; simpa [escChar, wellEscaped] using ht
  by_cases h4 : c = '\n'
  · subst h4; simpa [escChar, wellEscaped] using ht
  by_cases h5 : c = '\r'
  · subst h5; simpa [escChar, wellEscaped] using ht
  · simp only [escChar, h1, h2, h3, h4, h5, if_false, List.singleton_append]
    cases t with
    | nil => simp [wellEscaped, h1, h2, h3, h4, h5]
    | cons d rest =>
      simp only [wellEscaped, h1, if_false, Bool.and_eq_true, Bool.not_eq_true]
      refine ⟨by simp [h1, h2, h3, h4, h5], ht⟩

/-! ## Claim C9 -/

/-- **C9.** The CEF field escaping is lossless: it is exactly the
    per-character substitution of the five special characters (backslash
    escaped first), its output is well-escaped (no bare occurrence of `\`,
    `|`, `=`, LF or CR remains), and the decoder of the escape rule is a left
    inverse — decode (encode s) = s for every string. -/
theorem spec_C9_escape_lossless (s : List Char) :
    escapeField s = s.flatMap escChar ∧
    wellEscaped (escapeField s) = true ∧
    unescapeField (escapeField s) = s := by
  induction s with
  | nil => exact ⟨rfl, rfl, rfl⟩
  | cons c t ih =>
    obtain ⟨ih1, ih2, ih3⟩ := ih
    refine ⟨?_, ?_, ?_⟩
    · rw [escapeField_cons, ih1, List.flatMap_cons]
    · rw [escapeField_cons]
      exact wellEscaped_escChar c _ ih2
    · rw [escapeField_cons, unescape_escChar, ih3]

end Watchtower
